import Mathlib

/-!
Verification of the jobly data-access layer: the partial-update SQL helper
(helpers/sql.js) and the Job model (models/job.js), shallowly embedded in
Lean.  JavaScript values are modelled by `JVal`; the number values supplied
directly in this code base are integral, while the Number() string coercion
follows the full StringNumericLiteral grammar, its result kept as an exact
finite fraction or an infinity (`JSNum`) — float64 rounding is idealised
away.  The relational store is modelled by `DB`, and each SQL statement
shape issued by the source is given its standard SQL semantics on that
model.
-/

namespace Jobly

/-- JavaScript values as they occur in this code base.  `undefined` is the value
read from an absent object property. -/
inductive JVal where
  | num (n : Int)
  | str (s : String)
  | bool (b : Bool)
  | null
  | undefined
  deriving DecidableEq, Repr

/-- Decimal digit value of a character, if it is one. -/
def digit? (c : Char) : Option Nat :=
  if 48 ≤ c.toNat ∧ c.toNat ≤ 57 then some (c.toNat - 48) else none

/-- Accumulate a run of decimal digits. -/
def digitsAcc : Nat → List Char → Option Nat
  | acc, [] => some acc
  | acc, c :: cs =>
    match digit? c with
    | some d => digitsAcc (acc * 10 + d) cs
    | none => none

/-- Parse a nonempty run of decimal digits as a natural number. -/
def digitsVal? (cs : List Char) : Option Nat :=
  match cs with
  | [] => none
  | _ => digitsAcc 0 cs

/-- An unsigned decimal numeral: integer part and the list of fraction
digits.  Models the NUMERIC values stored in the equity column (pg hands
them to JS as strings; every equity value in this schema lies in 0..1). -/
structure Dec where
  ip : Nat
  fp : List Nat
  deriving DecidableEq, Repr

/-- Whether the decimal is strictly positive, i.e. the SQL predicate
equity > 0 on a non-null equity. -/
def Dec.isPos (d : Dec) : Bool :=
  d.ip != 0 || d.fp.any (fun x => x != 0)

/-- Split a character list at the first dot. -/
def splitDot : List Char → List Char × Option (List Char)
  | [] => ([], none)
  | c :: cs =>
    if c = '.' then ([], some cs)
    else
      let r := splitDot cs
      (c :: r.1, r.2)

/-- Parse an unsigned decimal numeral: digits, optionally a dot and fraction
digits, with at least one digit overall — the textual NUMERIC input forms
used by this code base. -/
def parseDec (s : String) : Option Dec :=
  let p := splitDot s.data
  match p.2 with
  | none => (digitsVal? p.1).map (fun n => ⟨n, []⟩)
  | some fr =>
    if p.1.isEmpty ∧ fr.isEmpty then none
    else
      match fr.mapM digit? with
      | none => none
      | some fd =>
        match p.1 with
        | [] => some ⟨0, fd⟩
        | _ => (digitsVal? p.1).map (fun n => ⟨n, fd⟩)

/-- JS whitespace characters recognised by Number(): space, tab, line
terminators, vertical tab and form feed (the exotic Unicode space code
points do not occur in this code base). -/
def wsChar (c : Char) : Bool :=
  c = ' ' || c = '\t' || c = '\n' || c = '\r' || c = '\x0B' || c = '\x0C'

/-- Strip surrounding whitespace, as Number() does before parsing. -/
def jsTrim (s : String) : String :=
  ⟨((s.data.dropWhile wsChar).reverse.dropWhile wsChar).reverse⟩

/-- The value of a successful JS Number() coercion: a finite value, kept as
an exact signed numerator over a positive power-of-ten denominator, or an
infinity.  Values are modelled exactly; float64 rounding is idealised
away. -/
inductive JSNum where
  | fin (num : Int) (den : Nat)
  | posInf
  | negInf
  deriving DecidableEq, Repr

/-- Numeric negation. -/
def JSNum.negate : JSNum → JSNum
  | .fin num den => .fin (-num) den
  | .posInf => .negInf
  | .negInf => .posInf

/-- SQL truth of the comparison v <= s against an integer salary s: finite
values compare exactly by cross-multiplication; no salary reaches positive
infinity; negative infinity is below every salary. -/
def JSNum.leInt : JSNum → Int → Bool
  | .fin num den, s => num ≤ s * (den : Int)
  | .posInf, _ => false
  | .negInf, _ => true

/-- Split a character list at the first exponent marker e or E. -/
def splitExp : List Char → List Char × Option (List Char)
  | [] => ([], none)
  | c :: cs =>
    if c = 'e' ∨ c = 'E' then ([], some cs)
    else
      let r := splitExp cs
      (c :: r.1, r.2)

/-- Parse a mantissa — digits, optionally a dot and fraction digits, with
at least one digit overall — as a numerator over a power-of-ten
denominator. -/
def parseMantissa (cs : List Char) : Option (Nat × Nat) :=
  let p := splitDot cs
  match p.2 with
  | none =>
    match p.1 with
    | [] => none
    | _ => (digitsAcc 0 p.1).map (fun n => (n, 1))
  | some fr =>
    if p.1.isEmpty ∧ fr.isEmpty then none
    else
      match digitsAcc 0 p.1, digitsAcc 0 fr with
      | some ipv, some frv => some (ipv * 10 ^ fr.length + frv, 10 ^ fr.length)
      | _, _ => none

/-- Parse an exponent: an optional sign followed by at least one digit. -/
def parseExp (cs : List Char) : Option Int :=
  match cs with
  | [] => none
  | c :: rest =>
    if c = '-' then
      match rest with
      | [] => none
      | _ => (digitsAcc 0 rest).map (fun n => -(n : Int))
    else if c = '+' then
      match rest with
      | [] => none
      | _ => (digitsAcc 0 rest).map (fun n => (n : Int))
    else (digitsAcc 0 cs).map (fun n => (n : Int))

/-- An unsigned decimal literal with optional fraction and exponent, its
exact value. -/
def parseDecLit (cs : List Char) : Option JSNum :=
  let e := splitExp cs
  match parseMantissa e.1 with
  | none => none
  | some md =>
    match e.2 with
    | none => some (.fin md.1 md.2)
    | some ecs =>
      match parseExp ecs with
      | none => none
      | some ex =>
        if 0 ≤ ex then some (.fin ((md.1 : Int) * (10 : Int) ^ ex.toNat) md.2)
        else some (.fin md.1 (md.2 * 10 ^ (-ex).toNat))

/-- Value of a character as a digit in the given base, hex letters in
either case. -/
def baseDigit? (base : Nat) (c : Char) : Option Nat :=
  let v :=
    if 48 ≤ c.toNat ∧ c.toNat ≤ 57 then some (c.toNat - 48)
    else if 97 ≤ c.toNat ∧ c.toNat ≤ 102 then some (c.toNat - 87)
    else if 65 ≤ c.toNat ∧ c.toNat ≤ 70 then some (c.toNat - 55)
    else none
  match v with
  | some d => if d < base then some d else none
  | none => none

/-- Accumulate digits in the given base. -/
def baseAcc (base : Nat) : Nat → List Char → Option Nat
  | acc, [] => some acc
  | acc, c :: cs =>
    match baseDigit? base c with
    | some d => baseAcc base (acc * base + d) cs
    | none => none

/-- The body of a 0x, 0o or 0b radix literal: at least one digit of the
base. -/
def parseRadix (base : Nat) (cs : List Char) : Option JSNum :=
  match cs with
  | [] => none
  | _ => (baseAcc base 0 cs).map (fun n => .fin (n : Int) 1)

/-- A StringNumericLiteral body after an explicit sign: Infinity or a
decimal literal — the radix forms admit no sign. -/
def parseSigned (cs : List Char) : Option JSNum :=
  if cs = "Infinity".data then some .posInf
  else parseDecLit cs

/-- An unsigned StringNumericLiteral body: Infinity, a 0x / 0o / 0b radix
literal, or a decimal literal. -/
def parseUnsigned (cs : List Char) : Option JSNum :=
  if cs = "Infinity".data then some .posInf
  else
    match cs with
    | '0' :: x :: rest =>
      if x = 'x' ∨ x = 'X' then parseRadix 16 rest
      else if x = 'o' ∨ x = 'O' then parseRadix 8 rest
      else if x = 'b' ∨ x = 'B' then parseRadix 2 rest
      else parseDecLit cs
    | _ => parseDecLit cs

/-- JS Number() coercion of a string, after the StringNumericLiteral
grammar: surrounding whitespace stripped; the empty string is 0; otherwise
an optionally signed decimal literal (digits, optional dot and fraction,
optional exponent) or Infinity, or an unsigned radix literal.  Anything
else is NaN, given as none. -/
def parseNumLit (s : String) : Option JSNum :=
  let t := (jsTrim s).data
  match t with
  | [] => some (.fin 0 1)
  | c :: cs =>
    if c = '-' then (parseSigned cs).map JSNum.negate
    else if c = '+' then parseSigned cs
    else parseUnsigned t

/-- JS Number() coercion; `none` is NaN. -/
def jsNumber : JVal → Option JSNum
  | .num n => some (.fin n 1)
  | .str s => parseNumLit s
  | .bool b => some (.fin (if b then 1 else 0) 1)
  | .null => some (.fin 0 1)
  | .undefined => none

/-- Lower-case an ASCII letter, as toLowerCase() does on the strings used
here. -/
def lowerChar (c : Char) : Char :=
  if 65 ≤ c.toNat ∧ c.toNat ≤ 90 then Char.ofNat (c.toNat + 32) else c

/-- ASCII lower-casing of a string. -/
def jsToLower (s : String) : String :=
  ⟨s.data.map lowerChar⟩

/-- JS v.toLowerCase(): defined on strings; on any other value the property
access yields no function and the call raises a TypeError, given as
`none`. -/
def jsToLowerCase : JVal → Option String
  | .str s => some (jsToLower s)
  | _ => none

/-- Errors surfaced by the embedded code: BadRequestError and NotFoundError
from expressError, a JS TypeError, and an opaque database fault (spec section
7: unhandled failures propagate as opaque faults). -/
inductive JErr where
  | badRequest (msg : String)
  | notFound (msg : String)
  | typeError (msg : String)
  | dbError (msg : String)
  deriving DecidableEq, Repr

/-- A JS object as an association list in property insertion order, which is
the iteration order of Object.keys for the non-numeric keys used here. -/
abbrev JObj := List (String × JVal)

/-- Property access obj[k]; an absent key yields undefined. -/
def jGet (obj : JObj) (k : String) : JVal :=
  match List.lookup k obj with
  | some v => v
  | none => .undefined

/-- The column name used for the key colName, from the source expression
jsToSql[colName] || colName.  The JS || operator falls back on any falsy
value, so an empty-string alias also falls back to colName. -/
def resolveCol (jsToSql : List (String × String)) (colName : String) : String :=
  match List.lookup colName jsToSql with
  | some v => if v = "" then colName else v
  | none => colName

/-- helpers/sql.js sqlForPartialUpdate: maps the keys of dataToUpdate, in
iteration order, to fragments of the form a double-quoted column name
followed by =$i with i counting from 1, joins them with a comma and a
space, and pairs them with the values in the same order; raises
BadRequestError with message No data when the field mapping is empty. -/
def sqlForPartialUpdate (dataToUpdate : JObj) (jsToSql : List (String × String)) :
    Except JErr (String × List JVal) :=
  let keys := dataToUpdate.map Prod.fst
  if keys.length = 0 then .error (.badRequest "No data")
  else
    let cols := keys.mapIdx (fun idx colName =>
      "\"" ++ resolveCol jsToSql colName ++ "\"=$" ++ Nat.repr (idx + 1))
    .ok (String.intercalate ", " cols, dataToUpdate.map Prod.snd)

/-- A row of the jobs table: id, title, salary, equity, company_handle, the
last aliased to companyHandle in every SELECT the source issues. -/
structure JobRow where
  id : Int
  title : String
  salary : Option Int
  equity : Option Dec
  companyHandle : String
  deriving DecidableEq, Repr

/-- A row of the companies table; read-only from this core. -/
structure CompanyRow where
  handle : String
  name : String
  description : String
  numEmployees : Option Int
  logoUrl : Option String
  deriving DecidableEq, Repr

/-- The relational store this core talks to. -/
structure DB where
  jobs : List JobRow
  companies : List CompanyRow
  deriving DecidableEq, Repr

/-- The WHERE conjuncts Job.findFiltered can build, as abstract syntax:
salaryGE q renders as salary >= followed by the interpolated coerced
number, equityGT0 renders as equity > 0, and titleLike pat renders as
LOWER(title) LIKE the pattern pat wrapped in percent signs. -/
inductive Clause where
  | salaryGE (q : JSNum)
  | equityGT0
  | titleLike (pat : String)
  deriving DecidableEq, Repr

/-- SQL truth of one conjunct at a row; a NULL column fails a comparison,
and a LIKE pattern wrapped in percent signs is a substring test. -/
def evalClause : Clause → JobRow → Bool
  | .salaryGE q, r =>
    match r.salary with
    | some s => q.leInt s
    | none => false
  | .equityGT0, r =>
    match r.equity with
    | some e => e.isPos
    | none => false
  | .titleLike pat, r => decide (pat.data <:+: (jsToLower r.title).data)

/-- Whether the rendered text of a conjunct is a valid SQL expression: an
infinite minSalary value interpolates as the bare word Infinity, which the
database rejects as an unknown identifier, faulting the whole statement;
every finite number interpolates as a valid numeric literal. -/
def clauseOk : Clause → Bool
  | .salaryGE (.fin _ _) => true
  | .salaryGE _ => false
  | _ => true

/-- The title case of the switch in Job.findFiltered: a LIKE conjunct on the
lower-cased value; on a non-string value the toLowerCase() call raises a
TypeError. -/
def titleArm (v : JVal) : Except JErr Clause :=
  match jsToLowerCase v with
  | some s => .ok (.titleLike s)
  | none => .error (.typeError "toLowerCase is not a function")

/-- One execution of the switch body in Job.findFiltered for one key of the
filter object (source lines 310-332).  The hasEquity case ends without a
break statement: when the strict comparison with true fails, control falls
through into the title case. -/
def filterClause (filterBy : JObj) (condition : String) : Except JErr Clause :=
  if condition = "minSalary" then
    match jsNumber (jGet filterBy condition) with
    | none => .error (.badRequest "minSalary must be a number.")
    | some n => .ok (.salaryGE n)
  else if condition = "hasEquity" then
    if jGet filterBy condition = JVal.bool true then .ok .equityGT0
    else titleArm (jGet filterBy condition)
  else if condition = "title" then
    titleArm (jGet filterBy condition)
  else .error (.badRequest ("Invalid filter key: " ++ condition))

/-- JS Array.map over the filter keys: the callback runs left to right and
the first exception thrown aborts the whole call. -/
def mapClauses (filterBy : JObj) : List String → Except JErr (List Clause)
  | [] => .ok []
  | k :: ks =>
    match filterClause filterBy k with
    | .error e => .error e
    | .ok c =>
      match mapClauses filterBy ks with
      | .error e => .error e
      | .ok cs => .ok (c :: cs)

/-- ORDER BY title: code point comparison of titles, the C collation. -/
def titleLE (a b : JobRow) : Prop := a.title.data ≤ b.title.data

instance : DecidableRel titleLE := fun a b =>
  inferInstanceAs (Decidable (a.title.data ≤ b.title.data))

instance : IsTotal JobRow titleLE := ⟨fun a b => le_total a.title.data b.title.data⟩

instance : IsTrans JobRow titleLE := ⟨fun _ _ _ h₁ h₂ => le_trans h₁ h₂⟩

/-- The ORDER BY title ascending of the SELECT statements. -/
def sortByTitle (rows : List JobRow) : List JobRow :=
  List.insertionSort titleLE rows

/-- models/job.js Job.findAll: SELECT every job ORDER BY title; the raw
companyHandle is selected and no company object is built. -/
def Job.findAll (db : DB) : List JobRow :=
  sortByTitle db.jobs

/-- models/job.js Job.findFiltered: raises BadRequestError on an empty
filter object; otherwise maps every key through the switch to a WHERE
conjunct, joins the conjuncts with AND and returns the matching jobs
ordered by title; the database faults the statement when a conjunct is not
valid SQL (an interpolated Infinity).  The check of jobsRes.rows after the
query is dead code — a result row array is always truthy in JS, even when
empty — and is not modelled. -/
def Job.findFiltered (db : DB) (filterBy : JObj) : Except JErr (List JobRow) :=
  let keys := filterBy.map Prod.fst
  if keys.length = 0 then .error (.badRequest "No data to filter by")
  else
    match mapClauses filterBy keys with
    | .error e => .error e
    | .ok whereQuery =>
      if whereQuery.all clauseOk then
        .ok (sortByTitle (db.jobs.filter (fun r => whereQuery.all (fun c => evalClause c r))))
      else .error (.dbError "column does not exist")

/-- The shape Job.get returns: the job row with companyHandle deleted and a
company object added in its place — the first row of the companies lookup,
or none (JS undefined) when the handle matches no company.  The structure
has no companyHandle field. -/
structure JobWithCompany where
  id : Int
  title : String
  salary : Option Int
  equity : Option Dec
  company : Option CompanyRow
  deriving DecidableEq, Repr

/-- models/job.js Job.get: select the job by id; raise NotFoundError when no
row comes back — before any companies query is made; otherwise look the
owning company up by handle, delete companyHandle from the job object and
attach the company row. -/
def Job.get (db : DB) (id : Int) : Except JErr JobWithCompany :=
  match db.jobs.find? (fun r => r.id == id) with
  | none => .error (.notFound ("No job with id: " ++ toString id))
  | some job =>
    .ok { id := job.id, title := job.title, salary := job.salary, equity := job.equity,
          company := db.companies.find? (fun c => c.handle == job.companyHandle) }

/-- Whether the database accepts one SET assignment of the generated UPDATE
statement: the column must exist in the jobs schema and the bound value
must fit the column type.  A violation faults the statement as a whole,
before any row is touched. -/
def checkAssign (col : String) (v : JVal) : Except JErr Unit :=
  if col = "title" then
    match v with
    | .str _ => .ok ()
    | _ => .error (.dbError "invalid input for column title")
  else if col = "salary" then
    match v with
    | .num _ => .ok ()
    | .null => .ok ()
    | _ => .error (.dbError "invalid input for column salary")
  else if col = "equity" then
    match v with
    | .str s =>
      match parseDec s with
      | some _ => .ok ()
      | none => .error (.dbError "invalid input for column equity")
    | .num n => if 0 ≤ n then .ok () else .error (.dbError "invalid input for column equity")
    | .null => .ok ()
    | _ => .error (.dbError "invalid input for column equity")
  else .error (.dbError ("column " ++ col ++ " of relation jobs does not exist"))

/-- Statement-level acceptance of the whole SET list. -/
def checkAssigns : JObj → Except JErr Unit
  | [] => .ok ()
  | kv :: rest =>
    match checkAssign kv.1 kv.2 with
    | .error e => .error e
    | .ok () => checkAssigns rest

/-- Effect of one accepted SET assignment on a row. -/
def applyAssign (col : String) (v : JVal) (r : JobRow) : JobRow :=
  if col = "title" then
    match v with
    | .str s => { r with title := s }
    | _ => r
  else if col = "salary" then
    match v with
    | .num n => { r with salary := some n }
    | .null => { r with salary := none }
    | _ => r
  else if col = "equity" then
    match v with
    | .str s =>
      match parseDec s with
      | some d => { r with equity := some d }
      | none => r
    | .num n => { r with equity := some ⟨n.toNat, []⟩ }
    | .null => { r with equity := none }
    | _ => r
  else r

/-- Effect of the whole SET list on a row, left to right; with distinct
keys this coincides with the simultaneous SQL assignment. -/
def applyAssigns (data : JObj) (r : JobRow) : JobRow :=
  data.foldl (fun acc kv => applyAssign kv.1 kv.2 acc) r

/-- The positional parameter array the source passes to db.query for the
UPDATE statement: the values followed by the id (source line 413). -/
def Job.updateParams (id : Int) (data : JObj) : List JVal :=
  data.map Prod.snd ++ [JVal.num id]

/-- The placeholder the source splices into the WHERE clause for the id: a
dollar sign followed by values.length + 1 (source line 403). -/
def Job.updateIdVarIdx (values : List JVal) : String :=
  "$" ++ Nat.repr (values.length + 1)

/-- The column mapper invocation Job.update makes: an empty alias
mapping. -/
def Job.updateSetCols (data : JObj) : Except JErr (String × List JVal) :=
  sqlForPartialUpdate data []

/-- models/job.js Job.update: builds the SET clause through
sqlForPartialUpdate — whose No data failure is raised before any SQL is
issued; executes the UPDATE, which the database rejects as a whole when a
generated column name or bound value is invalid, setting the supplied
columns on every row whose id matches; returns rows[0] of RETURNING, or
raises NotFoundError when no row matched, the store in either case holding
the statement's effect. -/
def Job.update (db : DB) (id : Int) (data : JObj) : Except JErr JobRow × DB :=
  match Job.updateSetCols data with
  | .error e => (.error e, db)
  | .ok _ =>
    match checkAssigns data with
    | .error e => (.error e, db)
    | .ok () =>
      let jobs2 := db.jobs.map (fun r => if r.id == id then applyAssigns data r else r)
      match db.jobs.find? (fun r => r.id == id) with
      | none => (.error (.notFound ("No job with id: " ++ toString id)), { db with jobs := jobs2 })
      | some j => (.ok (applyAssigns data j), { db with jobs := jobs2 })

/-- models/job.js Job.remove: DELETE FROM jobs by id RETURNING id; raises
NotFoundError when RETURNING has no rows.  The statement's effect on the
store — removing every matching row, which is nothing in the error case —
is returned alongside. -/
def Job.remove (db : DB) (id : Int) : Except JErr Unit × DB :=
  let db2 : DB := { db with jobs := db.jobs.filter (fun r => !(r.id == id)) }
  match db.jobs.find? (fun r => r.id == id) with
  | none => (.error (.notFound ("No job with id: " ++ toString id)), db2)
  | some _ => (.ok (), db2)

/-- Sample rows mirroring the repository's test fixtures. -/
def jobOne : JobRow :=
  { id := 1, title := "job1", salary := some 100, equity := some ⟨0, [1]⟩, companyHandle := "c1" }

def jobTwo : JobRow :=
  { id := 2, title := "job2", salary := some 300, equity := some ⟨0, []⟩, companyHandle := "c2" }

def compOne : CompanyRow :=
  { handle := "c1", name := "C1", description := "Desc1", numEmployees := some 1,
    logoUrl := some "http://c1.img" }

def compTwo : CompanyRow :=
  { handle := "c2", name := "C2", description := "Desc2", numEmployees := some 2,
    logoUrl := some "http://c2.img" }

def sampleDB : DB :=
  { jobs := [jobTwo, jobOne], companies := [compOne, compTwo] }

/-- The null-setting update payload of the repository's own test. -/
def updNulls : JObj :=
  [("title", JVal.str "Updated"), ("salary", JVal.null), ("equity", JVal.null)]

/-! Evaluation checks of the embedding on concrete inputs. -/

example :
    sqlForPartialUpdate [("firstName", .str "a"), ("age", .num 32)] [("firstName", "first_name")]
      = .ok ("\"first_name\"=$1, \"age\"=$2", [.str "a", .num 32]) := by rfl

example : parseNumLit "not-a-number" = none := by decide

example : parseNumLit "200" = some (.fin 200 1) := by decide

example : parseNumLit "1.5" = some (.fin 15 10) := by decide

example : parseNumLit ".5" = some (.fin 5 10) := by decide

example : parseNumLit "12." = some (.fin 12 1) := by decide

example : parseNumLit "1e3" = some (.fin 1000 1) := by decide

example : parseNumLit "1e-2" = some (.fin 1 100) := by decide

example : parseNumLit "0x10" = some (.fin 16 1) := by decide

example : parseNumLit "0o10" = some (.fin 8 1) := by decide

example : parseNumLit "0b11" = some (.fin 3 1) := by decide

example : parseNumLit "Infinity" = some .posInf := by decide

example : parseNumLit "-Infinity" = some .negInf := by decide

example : parseNumLit "  -12.25  " = some (.fin (-1225) 100) := by decide

example : parseNumLit "" = some (.fin 0 1) := by decide

example : parseNumLit "-0x10" = none := by decide

example : parseNumLit "." = none := by decide

example : parseNumLit "1e" = none := by decide

example : parseNumLit "1.2.3" = none := by decide

example : parseNumLit "infinity" = none := by decide

example : parseDec "0.1" = some ⟨0, [1]⟩ := by decide

example : jsToLower "Job1" = "job1" := by decide

example : Job.findAll sampleDB = [jobOne, jobTwo] := by rfl

example : Job.findFiltered sampleDB [("minSalary", .num 200)] = .ok [jobTwo] := by rfl

example : Job.findFiltered sampleDB [("minSalary", .str "250.5")] = .ok [jobTwo] := by rfl

example : Job.findFiltered sampleDB [("minSalary", .str "Infinity")]
    = .error (.dbError "column does not exist") := by rfl

example : Job.findFiltered sampleDB [("hasEquity", .bool true)] = .ok [jobOne] := by rfl

example : Job.findFiltered sampleDB [("hasEquity", .bool false)]
    = .error (.typeError "toLowerCase is not a function") := by rfl

example : Job.findFiltered sampleDB [("title", .str "JOB1")] = .ok [jobOne] := by rfl

example : Job.get sampleDB 1
    = .ok { id := 1, title := "job1", salary := some 100, equity := some ⟨0, [1]⟩,
            company := some compOne } := by rfl

example : Job.get sampleDB 0 = .error (.notFound "No job with id: 0") := by rfl

example :
    Job.update sampleDB 1 [("title", .str "Updated"), ("salary", .null), ("equity", .null)]
      = (.ok { id := 1, title := "Updated", salary := none, equity := none, companyHandle := "c1" },
         { jobs := [jobTwo, { id := 1, title := "Updated", salary := none, equity := none,
                              companyHandle := "c1" }],
           companies := [compOne, compTwo] }) := by rfl

example : (Job.update sampleDB 1 []).1 = .error (.badRequest "No data") := by rfl

example : (Job.remove sampleDB 1).2 = { jobs := [jobTwo], companies := [compOne, compTwo] } := by rfl

/-! Helper lemmas about the embedded operations. -/

lemma mapIdx_eq_range_map (f : ℕ → String → String) (l : List String) :
    l.mapIdx f = (List.range l.length).map (fun i => f i (l.getD i "")) := by
  induction l generalizing f with
  | nil => simp
  | cons a t ih =>
    rw [List.mapIdx_cons, ih (fun i => f (i + 1)), List.length_cons,
      List.range_succ_eq_map, List.map_cons, List.map_map]
    simp [Function.comp]

lemma mapClauses_ok_forall {fb : JObj} {ks : List String} {cs : List Clause}
    (h : mapClauses fb ks = .ok cs) : ∀ k ∈ ks, ∃ c, filterClause fb k = .ok c := by
  induction ks generalizing cs with
  | nil => simp
  | cons k t ih =>
    intro k' hk'
    rw [mapClauses] at h
    cases hfc : filterClause fb k with
    | error e => rw [hfc] at h; exact absurd h (by simp)
    | ok c =>
      rw [hfc] at h
      cases hmt : mapClauses fb t with
      | error e => rw [hmt] at h; exact absurd h (by simp)
      | ok cs2 =>
        rcases List.mem_cons.mp hk' with rfl | hmem
        · exact ⟨c, hfc⟩
        · exact ih hmt k' hmem

lemma mapClauses_append_error {fb : JObj} {pre : List String} {k : String}
    {post : List String} {e : JErr}
    (hpre : ∀ k2 ∈ pre, ∃ c, filterClause fb k2 = .ok c)
    (hk : filterClause fb k = .error e) :
    mapClauses fb (pre ++ k :: post) = .error e := by
  induction pre with
  | nil => simp [mapClauses, hk]
  | cons p t ih =>
    obtain ⟨c, hc⟩ := hpre p (by simp)
    have ht := ih (fun k2 hk2 => hpre k2 (by simp [hk2]))
    simp [mapClauses, hc, ht]

lemma jGet_append_right {pre : JObj} {k : String} {v : JVal} (post : JObj)
    (h : k ∉ pre.map Prod.fst) : jGet (pre ++ (k, v) :: post) k = v := by
  induction pre with
  | nil => simp [jGet, List.lookup]
  | cons p t ih =>
    cases p with
    | mk pk pv =>
      simp only [List.map_cons, List.mem_cons, not_or] at h
      have hne : (k == pk) = false := beq_eq_false_iff_ne.mpr h.1
      rw [List.cons_append, jGet, List.lookup, hne]
      exact ih h.2

lemma applyAssign_id (col : String) (v : JVal) (r : JobRow) :
    (applyAssign col v r).id = r.id := by
  unfold applyAssign
  split_ifs <;> cases v <;> simp <;> split <;> simp

lemma applyAssign_companyHandle (col : String) (v : JVal) (r : JobRow) :
    (applyAssign col v r).companyHandle = r.companyHandle := by
  unfold applyAssign
  split_ifs <;> cases v <;> simp <;> split <;> simp

lemma applyAssign_title_of_ne {col : String} (v : JVal) (r : JobRow) (h : col ≠ "title") :
    (applyAssign col v r).title = r.title := by
  unfold applyAssign
  split_ifs <;> first | exact absurd (by assumption) h | (cases v <;> simp <;> split <;> simp)

lemma applyAssign_salary_of_ne {col : String} (v : JVal) (r : JobRow) (h : col ≠ "salary") :
    (applyAssign col v r).salary = r.salary := by
  unfold applyAssign
  split_ifs <;> first | exact absurd (by assumption) h | (cases v <;> simp <;> split <;> simp)

lemma applyAssign_equity_of_ne {col : String} (v : JVal) (r : JobRow) (h : col ≠ "equity") :
    (applyAssign col v r).equity = r.equity := by
  unfold applyAssign
  split_ifs <;> first | exact absurd (by assumption) h | (cases v <;> simp <;> split <;> simp)

lemma applyAssigns_id (data : JObj) (r : JobRow) : (applyAssigns data r).id = r.id := by
  induction data generalizing r with
  | nil => rfl
  | cons kv t ih => exact (ih _).trans (applyAssign_id _ _ _)

lemma applyAssigns_companyHandle (data : JObj) (r : JobRow) :
    (applyAssigns data r).companyHandle = r.companyHandle := by
  induction data generalizing r with
  | nil => rfl
  | cons kv t ih => exact (ih _).trans (applyAssign_companyHandle _ _ _)

lemma applyAssigns_title_of_not_mem {data : JObj} (r : JobRow)
    (h : "title" ∉ data.map Prod.fst) : (applyAssigns data r).title = r.title := by
  induction data generalizing r with
  | nil => rfl
  | cons kv t ih =>
    simp only [List.map_cons, List.mem_cons, not_or] at h
    exact (ih _ h.2).trans (applyAssign_title_of_ne _ _ (fun he => h.1 he.symm))

lemma applyAssigns_salary_of_not_mem {data : JObj} (r : JobRow)
    (h : "salary" ∉ data.map Prod.fst) : (applyAssigns data r).salary = r.salary := by
  induction data generalizing r with
  | nil => rfl
  | cons kv t ih =>
    simp only [List.map_cons, List.mem_cons, not_or] at h
    exact (ih _ h.2).trans (applyAssign_salary_of_ne _ _ (fun he => h.1 he.symm))

lemma applyAssigns_equity_of_not_mem {data : JObj} (r : JobRow)
    (h : "equity" ∉ data.map Prod.fst) : (applyAssigns data r).equity = r.equity := by
  induction data generalizing r with
  | nil => rfl
  | cons kv t ih =>
    simp only [List.map_cons, List.mem_cons, not_or] at h
    exact (ih _ h.2).trans (applyAssign_equity_of_ne _ _ (fun he => h.1 he.symm))

lemma applyAssigns_salary_null {data : JObj} (r : JobRow)
    (hmem : ("salary", JVal.null) ∈ data) (hnd : (data.map Prod.fst).Nodup) :
    (applyAssigns data r).salary = none := by
  induction data generalizing r with
  | nil => exact absurd hmem (by simp)
  | cons kv t ih =>
    rw [List.map_cons, List.nodup_cons] at hnd
    rcases List.mem_cons.mp hmem with rfl | hmem2
    · show (applyAssigns t (applyAssign "salary" JVal.null r)).salary = none
      rw [show applyAssign "salary" JVal.null r = { r with salary := none } from rfl]
      exact applyAssigns_salary_of_not_mem _ hnd.1
    · exact ih _ hmem2 hnd.2

lemma applyAssigns_equity_null {data : JObj} (r : JobRow)
    (hmem : ("equity", JVal.null) ∈ data) (hnd : (data.map Prod.fst).Nodup) :
    (applyAssigns data r).equity = none := by
  induction data generalizing r with
  | nil => exact absurd hmem (by simp)
  | cons kv t ih =>
    rw [List.map_cons, List.nodup_cons] at hnd
    rcases List.mem_cons.mp hmem with rfl | hmem2
    · show (applyAssigns t (applyAssign "equity" JVal.null r)).equity = none
      rw [show applyAssign "equity" JVal.null r = { r with equity := none } from rfl]
      exact applyAssigns_equity_of_not_mem _ hnd.1
    · exact ih _ hmem2 hnd.2

lemma updateSetCols_ok_of_ne_nil {data : JObj} (h : data ≠ []) :
    ∃ s vs, Job.updateSetCols data = .ok (s, vs) := by
  cases data with
  | nil => exact absurd rfl h
  | cons kv t => exact ⟨_, _, rfl⟩

lemma resolveCol_nil (k : String) : resolveCol [] k = k := rfl

/-! Claim theorems. -/

/-- Claim C1 (code bug).  The claim — and the comment right above the case
in the source — says a truthy hasEquity contributes the conjunct
equity > 0 and a falsy one contributes nothing.  The hasEquity case of the
switch ends without a break, so every value other than the boolean true,
falsy values included, falls through into the title case: a boolean has no
toLowerCase method, so findFiltered with hasEquity false raises a TypeError
instead of listing all jobs, and a truthy non-true value yields a LIKE
conjunct on the title rather than equity > 0.  Only the literal true
produces the equity > 0 conjunct. -/
theorem findFiltered_hasEquity_fallthrough :
    (∀ db : DB, Job.findFiltered db [("hasEquity", JVal.bool false)]
      = .error (.typeError "toLowerCase is not a function"))
    ∧ mapClauses [("hasEquity", JVal.str "yes")] ["hasEquity"] = .ok [.titleLike "yes"]
    ∧ mapClauses [("hasEquity", JVal.bool true)] ["hasEquity"] = .ok [.equityGT0] :=
  ⟨fun _ => rfl, rfl, rfl⟩

/-- Claim C2 counterexample: with an alias mapping sending the key a to the
empty string, the claim predicts the mapped column name — the empty string —
but the source's expression jsToSql[colName] || colName takes the ||
fallback on the falsy empty string and uses the key a verbatim. -/
theorem sqlForPartialUpdate_empty_alias_counterexample :
    sqlForPartialUpdate [("a", JVal.num 1)] [("a", "")] = .ok ("\"a\"=$1", [JVal.num 1])
    ∧ ("\"a\"=$1" : String) ≠ "\"\"=$1" :=
  ⟨rfl, by decide⟩

/-- Claim C2 (amended): for a non-empty field mapping d and any alias
mapping m, sqlForPartialUpdate returns the fragments of the form a
double-quoted column followed by =$i — one per key of d in iteration order,
i counting from 1, the column being m[k] when m maps k to a non-empty
(truthy) name and k itself otherwise — joined by a comma and a space,
together with the values of d in the same order; for the empty field
mapping it fails with the bad-request No data condition instead of
returning. -/
theorem sqlForPartialUpdate_spec (d : JObj) (m : List (String × String)) :
    (d = [] → sqlForPartialUpdate d m = .error (.badRequest "No data"))
    ∧ (d ≠ [] → sqlForPartialUpdate d m
        = .ok (String.intercalate ", " ((List.range d.length).map (fun i =>
            "\"" ++ resolveCol m ((d.map Prod.fst).getD i "") ++ "\"=$" ++ Nat.repr (i + 1))),
          d.map Prod.snd)) := by
  constructor
  · rintro rfl; rfl
  · intro hne
    cases d with
    | nil => exact absurd rfl hne
    | cons kv t =>
      simp only [sqlForPartialUpdate, mapIdx_eq_range_map, List.length_map, List.length_cons,
        Nat.succ_ne_zero, if_false, reduceIte]

/-- Claim C2 witness: the spec's own example evaluated through the
theorem. -/
theorem sqlForPartialUpdate_spec_witness :
    sqlForPartialUpdate [("firstName", JVal.str "a"), ("age", JVal.num 32)]
        [("firstName", "first_name")]
      = .ok ("\"first_name\"=$1, \"age\"=$2", [JVal.str "a", JVal.num 32]) :=
  ((sqlForPartialUpdate_spec [("firstName", JVal.str "a"), ("age", JVal.num 32)]
      [("firstName", "first_name")]).2 (by decide)).trans (by rfl)

/-- Claim C10: Job.update invokes the column mapper with an empty alias
mapping, so every key of a non-empty data object — companyHandle, id, or
anything else — appears verbatim as the double-quoted column name of its
SET fragment, and no key is rejected at this layer: the mapper returns
normally on any non-empty data. -/
theorem update_verbatim_columns (data : JObj) (h : data ≠ []) :
    Job.updateSetCols data
      = .ok (String.intercalate ", " ((List.range data.length).map (fun i =>
          "\"" ++ (data.map Prod.fst).getD i "" ++ "\"=$" ++ Nat.repr (i + 1))),
        data.map Prod.snd) := by
  cases data with
  | nil => exact absurd rfl h
  | cons kv t =>
    show sqlForPartialUpdate _ [] = _
    simp only [sqlForPartialUpdate, mapIdx_eq_range_map, List.length_map, List.length_cons,
      Nat.succ_ne_zero, if_false, reduceIte, resolveCol_nil]

/-- Claim C10 witness: keys outside title, salary and equity — here
companyHandle and id — pass through verbatim as column names. -/
theorem update_verbatim_columns_witness :
    Job.updateSetCols [("companyHandle", JVal.str "c2"), ("id", JVal.num 9)]
      = .ok ("\"companyHandle\"=$1, \"id\"=$2", [JVal.str "c2", JVal.num 9]) :=
  (update_verbatim_columns [("companyHandle", JVal.str "c2"), ("id", JVal.num 9)]
      (by decide)).trans (by rfl)

/-- Claim C5: for an existing job, Job.get returns the job's id, title,
salary and equity together with a company object holding the owning
company's row — handle, name, description, numEmployees, logoUrl — and the
result type JobWithCompany carries no companyHandle field; for an absent
id it fails with not-found, and does so without consulting the companies
table: the outcome over a store stripped of all companies is the same. -/
theorem get_contract (db : DB) (id : Int) :
    (∀ j, db.jobs.find? (fun r => r.id == id) = some j →
      Job.get db id = .ok (JobWithCompany.mk j.id j.title j.salary j.equity
        (db.companies.find? (fun c => c.handle == j.companyHandle))))
    ∧ (db.jobs.find? (fun r => r.id == id) = none →
      Job.get db id = .error (.notFound ("No job with id: " ++ toString id))
      ∧ Job.get { jobs := db.jobs, companies := [] } id = Job.get db id) := by
  constructor
  · intro j hj
    simp [Job.get, hj]
  · intro hn
    constructor
    · simp [Job.get, hn]
    · show (match db.jobs.find? (fun r => r.id == id) with
        | none => _ | some job => _) = _
      simp [Job.get, hn]

/-- Claim C5 witness: the sample store, at an existing and at an absent
id. -/
theorem get_contract_witness :
    Job.get sampleDB 1
      = .ok (JobWithCompany.mk 1 "job1" (some 100) (some ⟨0, [1]⟩) (some compOne))
    ∧ Job.get sampleDB 0 = .error (.notFound "No job with id: 0")
    ∧ Job.get { jobs := sampleDB.jobs, companies := [] } 0 = Job.get sampleDB 0 := by
  refine ⟨((get_contract sampleDB 1).1 jobOne (by rfl)).trans (by rfl), ?_, ?_⟩
  · exact ((get_contract sampleDB 0).2 (by rfl)).1
  · exact ((get_contract sampleDB 0).2 (by rfl)).2

/-- Claim C8: removing an existing id deletes the row — afterwards the
store holds no row with that id — and returns ok with no payload; removing
an absent id raises not-found and the store is unchanged, the DELETE having
matched nothing. -/
theorem remove_contract (db : DB) (id : Int) :
    (∀ j, db.jobs.find? (fun r => r.id == id) = some j →
      Job.remove db id
          = (.ok (), { db with jobs := db.jobs.filter (fun r => !(r.id == id)) })
        ∧ (Job.remove db id).2.jobs.filter (fun r => r.id == id) = [])
    ∧ (db.jobs.find? (fun r => r.id == id) = none →
      Job.remove db id = (.error (.notFound ("No job with id: " ++ toString id)), db)) := by
  constructor
  · intro j hj
    constructor
    · simp [Job.remove, hj]
    · simp [Job.remove, hj, List.filter_filter]
  · intro hn
    have hall : ∀ r ∈ db.jobs, (r.id == id) = false := by
      intro r hr
      have := List.find?_eq_none.mp hn r hr
      simpa using this
    have hself : db.jobs.filter (fun r => !(r.id == id)) = db.jobs := by
      apply List.filter_eq_self.mpr
      intro a ha
      simp [hall a ha]
    simp [Job.remove, hn, hself]

/-- Claim C4: with a well-typed non-empty update payload, updating an
existing id returns the updated row — whose id is the queried id — and the
id is bound as the final positional parameter, at the position named by the
spliced placeholder; updating any id with an empty payload fails with the
bad-request No data condition raised before any SQL statement is issued,
the store returned unchanged; updating an absent id with a non-empty
payload fails with the not-found condition. -/
theorem update_contract :
    (∀ (db : DB) (id : Int) (data : JObj) (j : JobRow),
      checkAssigns data = .ok () → data ≠ [] →
      db.jobs.find? (fun r => r.id == id) = some j →
        (Job.update db id data).1 = .ok (applyAssigns data j)
        ∧ (applyAssigns data j).id = id
        ∧ Job.updateParams id data = data.map Prod.snd ++ [JVal.num id]
        ∧ (Job.updateParams id data).getLast? = some (JVal.num id)
        ∧ Job.updateIdVarIdx (data.map Prod.snd) = "$" ++ Nat.repr (data.length + 1))
    ∧ (∀ (db : DB) (id : Int),
        Job.update db id [] = (.error (.badRequest "No data"), db))
    ∧ (∀ (db : DB) (id : Int) (data : JObj),
        checkAssigns data = .ok () → data ≠ [] →
        db.jobs.find? (fun r => r.id == id) = none →
        (Job.update db id data).1
          = .error (.notFound ("No job with id: " ++ toString id))) := by
  refine ⟨?_, ?_, ?_⟩
  · intro db id data j hck hne hj
    obtain ⟨s, vs, hsc⟩ := updateSetCols_ok_of_ne_nil hne
    have hid : j.id = id := by
      have := List.find?_some hj
      simpa using this
    refine ⟨?_, ?_, rfl, ?_, ?_⟩
    · simp [Job.update, hsc, hck, hj]
    · rw [applyAssigns_id, hid]
    · simp [Job.updateParams]
    · simp [Job.updateIdVarIdx]
  · intro db id
    rfl
  · intro db id data hck hne hn
    obtain ⟨s, vs, hsc⟩ := updateSetCols_ok_of_ne_nil hne
    simp [Job.update, hsc, hck, hn]

/-- Claim C4 witness: the sample store, updating job 1 with the test's
payload, updating with an empty payload, and updating the absent id 0. -/
theorem update_contract_witness :
    (Job.update sampleDB 1 updNulls).1 = .ok (applyAssigns updNulls jobOne)
    ∧ (applyAssigns updNulls jobOne).id = 1
    ∧ (Job.updateParams 1 updNulls).getLast? = some (JVal.num 1)
    ∧ Job.updateIdVarIdx (updNulls.map Prod.snd) = "$4"
    ∧ Job.update sampleDB 5 [] = (.error (.badRequest "No data"), sampleDB)
    ∧ (Job.update sampleDB 0 updNulls).1 = .error (.notFound "No job with id: 0") := by
  have h1 := update_contract.1 sampleDB 1 updNulls jobOne (by rfl) (by decide) (by rfl)
  have h2 := update_contract.2.1 sampleDB 5
  have h3 := update_contract.2.2 sampleDB 0 updNulls (by rfl) (by decide) (by rfl)
  exact ⟨h1.1, h1.2.1, h1.2.2.2.1, h1.2.2.2.2.trans (by rfl), h2, h3.trans (by rfl)⟩

/-- Claim C6: Job.update changes only the supplied fields.  For an existing
job and a well-typed payload over title, salary and equity with distinct
keys: the updated row keeps the job's id and companyHandle; every field
absent from the payload keeps its prior value; an explicitly supplied null
is persisted as null; and the returned row is exactly the persisted one —
the store afterwards holds it in the old row's place, all other rows
untouched. -/
theorem update_frame (db : DB) (id : Int) (data : JObj) (j : JobRow)
    (hfind : db.jobs.find? (fun r => r.id == id) = some j)
    (hck : checkAssigns data = .ok ())
    (hne : data ≠ [])
    (hnd : (data.map Prod.fst).Nodup) :
    Job.update db id data = (.ok (applyAssigns data j),
        { db with jobs := db.jobs.map (fun r => if r.id == id then applyAssigns data r else r) })
    ∧ (applyAssigns data j).id = j.id
    ∧ (applyAssigns data j).companyHandle = j.companyHandle
    ∧ ("title" ∉ data.map Prod.fst → (applyAssigns data j).title = j.title)
    ∧ ("salary" ∉ data.map Prod.fst → (applyAssigns data j).salary = j.salary)
    ∧ ("equity" ∉ data.map Prod.fst → (applyAssigns data j).equity = j.equity)
    ∧ (("salary", JVal.null) ∈ data → (applyAssigns data j).salary = none)
    ∧ (("equity", JVal.null) ∈ data → (applyAssigns data j).equity = none)
    ∧ (∀ r ∈ db.jobs, (r.id == id) = false → r ∈ (Job.update db id data).2.jobs) := by
  obtain ⟨s, vs, hsc⟩ := updateSetCols_ok_of_ne_nil hne
  have hupd : Job.update db id data = (.ok (applyAssigns data j),
      { db with jobs := db.jobs.map (fun r => if r.id == id then applyAssigns data r else r) }) := by
    simp [Job.update, hsc, hck, hfind]
  refine ⟨hupd, applyAssigns_id data j, applyAssigns_companyHandle data j,
    fun h => applyAssigns_title_of_not_mem j h,
    fun h => applyAssigns_salary_of_not_mem j h,
    fun h => applyAssigns_equity_of_not_mem j h,
    fun h => applyAssigns_salary_null j h hnd,
    fun h => applyAssigns_equity_null j h hnd, ?_⟩
  intro r hr hrid
  rw [hupd]
  exact List.mem_map.mpr ⟨r, hr, by simp [hrid]⟩

/-- Claim C6 witness: the repository's own null-setting test on the sample
store: title is set, salary and equity become null, id and companyHandle
survive, and the store holds the returned row. -/
theorem update_frame_witness :
    Job.update sampleDB 1 updNulls
      = (.ok (JobRow.mk 1 "Updated" none none "c1"),
         DB.mk [jobTwo, JobRow.mk 1 "Updated" none none "c1"] [compOne, compTwo])
    ∧ (applyAssigns updNulls jobOne).salary = none
    ∧ (applyAssigns updNulls jobOne).equity = none
    ∧ (applyAssigns updNulls jobOne).companyHandle = jobOne.companyHandle := by
  have h := update_frame sampleDB 1 updNulls jobOne (by rfl) (by rfl) (by decide) (by decide)
  exact ⟨h.1.trans (by rfl), h.2.2.2.2.2.2.1 (by decide), h.2.2.2.2.2.2.2.1 (by decide),
    h.2.2.1⟩

/-- Claim C7: Job.findAll returns every persisted job — a permutation of
the jobs table, each row carrying its companyHandle and built with no
company object, the row type having no such field — sorted by title
ascending; in particular two rows titled job1 and job2 come out in that
order whichever way they were inserted. -/
theorem findAll_sorted_spec :
    (∀ db : DB, (Job.findAll db).Perm db.jobs ∧ List.Sorted titleLE (Job.findAll db))
    ∧ (∀ (a b : JobRow) (cs : List CompanyRow), a.title = "job1" → b.title = "job2" →
        Job.findAll (DB.mk [a, b] cs) = [a, b] ∧ Job.findAll (DB.mk [b, a] cs) = [a, b]) := by
  constructor
  · intro db
    exact ⟨List.perm_insertionSort titleLE db.jobs, List.sorted_insertionSort titleLE db.jobs⟩
  · intro a b cs ha hb
    have hab : titleLE a b := by rw [titleLE, ha, hb]; decide
    have hba : ¬ titleLE b a := by rw [titleLE, ha, hb]; decide
    constructor
    · show List.insertionSort titleLE [a, b] = [a, b]
      simp [List.insertionSort, List.orderedInsert, hab]
    · show List.insertionSort titleLE [b, a] = [a, b]
      simp [List.insertionSort, List.orderedInsert, hab, hba]

/-- Claim C7 witness: the fixture rows job1 and job2 inserted in both
orders, and the permutation fact on the sample store. -/
theorem findAll_sorted_spec_witness :
    Job.findAll (DB.mk [jobOne, jobTwo] []) = [jobOne, jobTwo]
    ∧ Job.findAll (DB.mk [jobTwo, jobOne] []) = [jobOne, jobTwo]
    ∧ (Job.findAll sampleDB).Perm sampleDB.jobs := by
  refine ⟨(findAll_sorted_spec.2 jobOne jobTwo [] rfl rfl).1,
    (findAll_sorted_spec.2 jobOne jobTwo [] rfl rfl).2,
    (findAll_sorted_spec.1 sampleDB).1⟩

/-- Claim C8 witness: the sample store, at an existing and at an absent
id. -/
theorem remove_contract_witness :
    Job.remove sampleDB 1 = (.ok (), { jobs := [jobTwo], companies := [compOne, compTwo] })
    ∧ (Job.remove sampleDB 1).2.jobs.filter (fun r => r.id == 1) = []
    ∧ Job.remove sampleDB 0 = (.error (.notFound "No job with id: 0"), sampleDB) := by
  refine ⟨((remove_contract sampleDB 1).1 jobOne (by rfl)).1.trans (by rfl), ?_, ?_⟩
  · exact ((remove_contract sampleDB 1).1 jobOne (by rfl)).2
  · exact (remove_contract sampleDB 0).2 (by rfl)

/-- Claim C3 counterexample: a filter mapping that contains minSalary with
a non-numeric value need not fail with the minSalary message — the keys are
processed in iteration order and the first failure wins, here the unknown
key bogus placed before minSalary. -/
theorem findFiltered_minSalary_first_error_counterexample :
    Job.findFiltered sampleDB [("bogus", JVal.num 1), ("minSalary", JVal.str "abc")]
      = .error (.badRequest "Invalid filter key: bogus")
    ∧ JErr.badRequest "Invalid filter key: bogus"
        ≠ JErr.badRequest "minSalary must be a number." :=
  ⟨rfl, by decide⟩

/-- Claim C3 (amended): in a filter mapping containing minSalary with a
non-numeric value, the call fails with the invalid-request condition
carrying the message minSalary must be a number. provided every key before
minSalary in iteration order contributes its clause without failing; and
for the mapping holding minSalary alone with a value coerced to the finite
number num over den, findFiltered returns exactly the jobs whose salary is
at least that number, ordered by title. -/
theorem findFiltered_minSalary_spec :
    (∀ (db : DB) (pre : JObj) (v : JVal) (post : JObj),
      (∀ kv ∈ pre, ∃ c, filterClause (pre ++ ("minSalary", v) :: post) kv.1 = .ok c) →
      "minSalary" ∉ pre.map Prod.fst →
      jsNumber v = none →
      Job.findFiltered db (pre ++ ("minSalary", v) :: post)
        = .error (.badRequest "minSalary must be a number."))
    ∧ (∀ (db : DB) (v : JVal) (num : Int) (den : Nat),
        jsNumber v = some (.fin num den) →
        ∃ rows, Job.findFiltered db [("minSalary", v)] = .ok rows
          ∧ rows.Perm (db.jobs.filter (fun r =>
              r.salary.any (fun s => num ≤ s * (den : Int))))
          ∧ List.Sorted titleLE rows) := by
  constructor
  · intro db pre v post hpre hnotin hnan
    have herr : filterClause (pre ++ ("minSalary", v) :: post) "minSalary"
        = .error (.badRequest "minSalary must be a number.") := by
      rw [filterClause, if_pos rfl, jGet_append_right post hnotin, hnan]
    have hpre2 : ∀ k2 ∈ pre.map Prod.fst,
        ∃ c, filterClause (pre ++ ("minSalary", v) :: post) k2 = .ok c := by
      intro k2 hk2
      obtain ⟨kv, hkv, rfl⟩ := List.mem_map.mp hk2
      exact hpre kv hkv
    have hkeys : (pre ++ ("minSalary", v) :: post).map Prod.fst
        = pre.map Prod.fst ++ "minSalary" :: post.map Prod.fst := by
      simp
    have hmap : mapClauses (pre ++ ("minSalary", v) :: post)
        ((pre ++ ("minSalary", v) :: post).map Prod.fst)
        = .error (.badRequest "minSalary must be a number.") := by
      rw [hkeys]
      exact mapClauses_append_error hpre2 herr
    rw [Job.findFiltered]
    rw [if_neg (by simp), hmap]
  · intro db v num den hv
    have hclause : filterClause [("minSalary", v)] "minSalary"
        = .ok (.salaryGE (.fin num den)) := by
      rw [filterClause, if_pos rfl]
      have : jGet [("minSalary", v)] "minSalary" = v := by
        simp [jGet, List.lookup]
      rw [this, hv]
    have heq : Job.findFiltered db [("minSalary", v)]
        = .ok (sortByTitle (db.jobs.filter
            (fun r => evalClause (.salaryGE (.fin num den)) r))) := by
      rw [Job.findFiltered]
      rw [if_neg (by simp), show ([("minSalary", v)] : JObj).map Prod.fst = ["minSalary"] from rfl,
        mapClauses, hclause, mapClauses]
      simp [clauseOk]
    refine ⟨_, heq, ?_, List.sorted_insertionSort _ _⟩
    refine (List.perm_insertionSort titleLE _).trans ?_
    rw [List.filter_congr (fun r _ => ?_)]
    cases hr : r.salary with
    | none => simp [evalClause, hr]
    | some s => simp [evalClause, JSNum.leInt, hr]

/-- Claim C3 witness: a well-behaved title key before a non-numeric
minSalary fails with the minSalary message; minSalary 200 alone returns
exactly the jobs paying at least 200; and the fractional string 1.5 is a
number for the coercion, reaching the success branch. -/
theorem findFiltered_minSalary_spec_witness :
    Job.findFiltered sampleDB [("title", JVal.str "job"), ("minSalary", JVal.str "not-a-number")]
      = .error (.badRequest "minSalary must be a number.")
    ∧ (∃ rows, Job.findFiltered sampleDB [("minSalary", JVal.num 200)] = .ok rows
        ∧ rows.Perm (sampleDB.jobs.filter (fun r =>
            r.salary.any (fun s => 200 ≤ s * ((1 : Nat) : Int))))
        ∧ List.Sorted titleLE rows)
    ∧ (∃ rows, Job.findFiltered sampleDB [("minSalary", JVal.str "1.5")] = .ok rows
        ∧ rows.Perm (sampleDB.jobs.filter (fun r =>
            r.salary.any (fun s => 15 ≤ s * ((10 : Nat) : Int))))
        ∧ List.Sorted titleLE rows) := by
  refine ⟨?_, ?_, ?_⟩
  · refine findFiltered_minSalary_spec.1 sampleDB [("title", JVal.str "job")]
      (JVal.str "not-a-number") [] ?_ (by decide) (by rfl)
    intro kv hkv
    rcases List.mem_cons.mp hkv with rfl | h2
    · exact ⟨.titleLike "job", rfl⟩
    · exact absurd h2 (by simp)
  · exact findFiltered_minSalary_spec.2 sampleDB (JVal.num 200) 200 1 rfl
  · exact findFiltered_minSalary_spec.2 sampleDB (JVal.str "1.5") 15 10 (by rfl)

/-- Claim C9 counterexample: a mapping containing an unknown key need not
fail with the invalid filter key condition — the keys are processed in
iteration order and the first failure wins, here a non-numeric minSalary
placed before the unknown key bogus. -/
theorem findFiltered_invalid_key_counterexample :
    Job.findFiltered sampleDB [("minSalary", JVal.str "abc"), ("bogus", JVal.num 1)]
      = .error (.badRequest "minSalary must be a number.")
    ∧ JErr.badRequest "minSalary must be a number."
        ≠ JErr.badRequest "Invalid filter key: bogus" :=
  ⟨rfl, by decide⟩

/-- Claim C9 (amended): findFiltered fails with the no-filter-data
condition on the empty mapping; a mapping containing a key other than
minSalary, hasEquity and title never returns normally, and fails with the
invalid filter key condition naming that key when every key before it in
iteration order contributes its clause without failing; in all cases the
error is the call's result, propagated to the caller. -/
theorem findFiltered_error_spec :
    (∀ db : DB, Job.findFiltered db [] = .error (.badRequest "No data to filter by"))
    ∧ (∀ (db : DB) (fb : JObj) (k : String) (v : JVal), (k, v) ∈ fb →
        k ≠ "minSalary" → k ≠ "hasEquity" → k ≠ "title" →
        ∀ rows, Job.findFiltered db fb ≠ .ok rows)
    ∧ (∀ (db : DB) (pre : JObj) (k : String) (v : JVal) (post : JObj),
        k ≠ "minSalary" → k ≠ "hasEquity" → k ≠ "title" →
        (∀ kv ∈ pre, ∃ c, filterClause (pre ++ (k, v) :: post) kv.1 = .ok c) →
        Job.findFiltered db (pre ++ (k, v) :: post)
          = .error (.badRequest ("Invalid filter key: " ++ k))) := by
  refine ⟨fun db => rfl, ?_, ?_⟩
  · intro db fb k v hmem h1 h2 h3 rows hok
    have herr : filterClause fb k = .error (.badRequest ("Invalid filter key: " ++ k)) := by
      rw [filterClause, if_neg h1, if_neg h2, if_neg h3]
    rw [Job.findFiltered] at hok
    rw [if_neg (by
      intro hlen
      rw [List.length_map] at hlen
      exact absurd (List.length_eq_zero.mp hlen ▸ hmem) (by simp))] at hok
    cases hmc : mapClauses fb (fb.map Prod.fst) with
    | error e => rw [hmc] at hok; exact absurd hok (by simp)
    | ok cs =>
      obtain ⟨c, hc⟩ := mapClauses_ok_forall hmc k (List.mem_map_of_mem Prod.fst hmem)
      rw [herr] at hc
      exact absurd hc (by simp)
  · intro db pre k v post h1 h2 h3 hpre
    have herr : filterClause (pre ++ (k, v) :: post) k
        = .error (.badRequest ("Invalid filter key: " ++ k)) := by
      rw [filterClause, if_neg h1, if_neg h2, if_neg h3]
    have hpre2 : ∀ k2 ∈ pre.map Prod.fst,
        ∃ c, filterClause (pre ++ (k, v) :: post) k2 = .ok c := by
      intro k2 hk2
      obtain ⟨kv, hkv, rfl⟩ := List.mem_map.mp hk2
      exact hpre kv hkv
    have hkeys : (pre ++ (k, v) :: post).map Prod.fst
        = pre.map Prod.fst ++ k :: post.map Prod.fst := by
      simp
    have hmap : mapClauses (pre ++ (k, v) :: post) ((pre ++ (k, v) :: post).map Prod.fst)
        = .error (.badRequest ("Invalid filter key: " ++ k)) := by
      rw [hkeys]
      exact mapClauses_append_error hpre2 herr
    rw [Job.findFiltered]
    rw [if_neg (by simp), hmap]

/-- Claim C9 witness: the empty mapping; an unknown key behind the
falling-through hasEquity false never yields a normal return; and an
unknown key behind a clean hasEquity true fails with the invalid filter
key condition. -/
theorem findFiltered_error_spec_witness :
    Job.findFiltered sampleDB [] = .error (.badRequest "No data to filter by")
    ∧ (∀ rows, Job.findFiltered sampleDB [("hasEquity", JVal.bool false), ("bogus", JVal.num 1)]
        ≠ .ok rows)
    ∧ Job.findFiltered sampleDB [("hasEquity", JVal.bool true), ("bogus", JVal.num 1)]
        = .error (.badRequest "Invalid filter key: bogus") := by
  refine ⟨findFiltered_error_spec.1 sampleDB, ?_, ?_⟩
  · exact fun rows => findFiltered_error_spec.2.1 sampleDB
      [("hasEquity", JVal.bool false), ("bogus", JVal.num 1)] "bogus" (JVal.num 1)
      (by decide) (by decide) (by decide) (by decide) rows
  · refine findFiltered_error_spec.2.2 sampleDB [("hasEquity", JVal.bool true)] "bogus"
      (JVal.num 1) [] (by decide) (by decide) (by decide) ?_
    intro kv hkv
    rcases List.mem_cons.mp hkv with rfl | h2
    · exact ⟨.equityGT0, rfl⟩
    · exact absurd h2 (by simp)

end Jobly
